import Mathlib

/-!
Verification model of the flag-display application (Zipu1.cpp / Zipu1.h / Zip.cpp).

The program extracts a ZIP archive embedded as a Windows resource (ID 1,
RT_RCDATA) to a fresh temporary directory, catalogues the image files it
contains, and shows random selections; the temporary directory is removed in
the form's destructor.

The filesystem is modelled as two finite lists of canonical paths (directories
and regular files), a path being a list of name segments.  Paths coming from
archive entries are resolved lexically (`.` and `..`) the way the OS resolves
them when the corresponding file is created.  Platform library calls
(TPath, TDirectory, TZipFile, std::mt19937, std::uniform_int_distribution)
are modelled by their documented behavior at the call sites used by the
source, noted at each definition.
-/

namespace ZipModel

/-- A filesystem path, as a list of name segments (drive/root first). -/
abbrev FPath := List String

/-- Lexical resolution of `.` and `..` segments, as the OS resolves a path
when a file is created at it.  `..` at the root stays at the root. -/
def normSegs (p : FPath) : FPath :=
  p.foldl (fun acc s =>
    if s = "." then acc
    else if s = ".." then acc.dropLast
    else acc ++ [s]) []

/-- `leadsWith q base` holds when `q` lies in the subtree of `base`
(`base` itself included): `base` is an initial run of `q`'s segments. -/
def leadsWith (q base : FPath) : Bool := decide (q.take base.length = base)

/-- The relative path of `q` below `base` (meaningful when `leadsWith q base`). -/
def relTo (q base : FPath) : FPath := q.drop base.length

/-- The file-name component of a path (its last segment). -/
def fileName (p : FPath) : String := p.reverse.headD ""

/-- The state of the filesystem: existing directories and regular files,
keyed by canonical path, in creation order. -/
structure FS where
  dirs : List FPath
  files : List FPath
  deriving DecidableEq

/-- All nonempty initial runs of `p`: the chain of directories that
`TDirectory::CreateDirectory(p)` guarantees to exist afterwards. -/
def ancestorsOf (p : FPath) : List FPath :=
  (List.range p.length).map (fun k => p.take (k + 1))

/-- `TDirectory::Exists`. -/
def FS.dirExists (fs : FS) (p : FPath) : Bool := decide (p ∈ fs.dirs)

/-- `TDirectory::CreateDirectory` (documented to create the full chain of
missing intermediate directories; succeeds silently on existing ones). -/
def FS.mkDirRec (fs : FS) (p : FPath) : FS :=
  { fs with dirs := fs.dirs ++ (ancestorsOf p).filter (fun q => decide (q ∉ fs.dirs)) }

/-- Creating (or overwriting) a regular file at `p`. -/
def FS.writeFile (fs : FS) (p : FPath) : FS :=
  { fs with files := if p ∈ fs.files then fs.files else fs.files ++ [p] }

/-- `TDirectory::Delete(p, true)`: recursive removal of the subtree at `p`. -/
def FS.removeTree (fs : FS) (p : FPath) : FS :=
  { dirs := fs.dirs.filter (fun q => !(leadsWith q p)),
    files := fs.files.filter (fun q => !(leadsWith q p)) }

/-- Decimal digit characters, as rendered by `IntToStr`. -/
def digitChar (d : Nat) : Char := Char.ofNat (48 + d)

/-- Decimal rendering of a natural number, most significant digit first.
The first argument is structural fuel (`n` itself suffices). -/
def natToStrAux : Nat → Nat → List Char
  | 0, _ => []
  | fuel + 1, n => if n = 0 then [] else natToStrAux fuel (n / 10) ++ [digitChar (n % 10)]

/-- Decimal rendering of a natural number (model of the RTL `IntToStr` on
nonnegative values). -/
def natToStr (n : Nat) : String := if n = 0 then "0" else ⟨natToStrAux n n⟩

/-- Model of the RTL `IntToStr`. -/
def intToStr (i : Int) : String :=
  if i < 0 then "-" ++ natToStr i.natAbs else natToStr i.natAbs

/-- `static_cast<int>` of a `DWORD` tick value: reduce mod 2^32 and
reinterpret as a signed 32-bit value. -/
def int32OfTick (tick : Nat) : Int :=
  let v := tick % 4294967296
  if v < 2147483648 then (v : Int) else (v : Int) - 4294967296

/-- State of `std::mt19937` (C++ standard [rand.eng.mers]): the 624-word
state vector and the position `mti` of the next untempered word. -/
structure MT where
  mt : List Nat
  mti : Nat
  deriving DecidableEq

/-- mt19937 seeding (standard initialization sequence,
multiplier 1812433253; leaves `mti` at 624 so the first draw twists). -/
def mtSeed (seed : Nat) : MT :=
  ⟨(List.range 624).foldl (fun l i =>
      if i = 0 then [seed % 4294967296]
      else
        let prev := l.getD (i - 1) 0
        l ++ [(1812433253 * (prev ^^^ (prev >>> 30)) + i) % 4294967296]) [], 624⟩

/-- The mt19937 twist transformation over the 624-word state. -/
def mtTwist (mt : List Nat) : List Nat :=
  (List.range 624).foldl (fun arr i =>
    let cur := arr.getD i 0 % 4294967296
    let nxt := arr.getD ((i + 1) % 624) 0 % 4294967296
    let y := (cur &&& 2147483648) ||| (nxt &&& 2147483647)
    let v := (arr.getD ((i + 397) % 624) 0 % 4294967296) ^^^ (y >>> 1) ^^^
      (if y &&& 1 = 1 then 2567483615 else 0)
    arr.set i v) mt

/-- The mt19937 tempering function. -/
def mtTemper (x : Nat) : Nat :=
  let y0 := x % 4294967296
  let y1 := y0 ^^^ (y0 >>> 11)
  let y2 := y1 ^^^ ((y1 <<< 7) &&& 2636928640)
  let y3 := y2 ^^^ ((y2 <<< 15) &&& 4022730752)
  y3 ^^^ (y3 >>> 18)

/-- One draw from mt19937: twist when the state is exhausted, then temper
the word at `mti` and advance `mti`. -/
def mtNext (g : MT) : Nat × MT :=
  if g.mti ≥ 624 then
    let arr := mtTwist g.mt
    (mtTemper (arr.getD 0 0), ⟨arr, 1⟩)
  else
    (mtTemper (g.mt.getD g.mti 0), ⟨g.mt, g.mti + 1⟩)

/-- Model of `std::uniform_int_distribution<int>(a, b)` applied to the
generator: the C++ standard fixes only the contract (a value in `[a, b]`,
obtained by consuming generator output); the concrete mapping is
implementation-defined, modelled here as one draw reduced mod the range. -/
def uniformInt (a b : Nat) (g : MT) : Nat × MT :=
  let r := mtNext g
  (a + r.1 % (b - a + 1), r.2)

/-- A path stored in an archive entry: ZIP names use `/` (or `\`) separators,
which the RTL normalizes; `rooted` records an absolute (drive- or
root-relative) name, which `TPath::Combine` returns unchanged. -/
structure EntryPath where
  rooted : Bool
  segs : List String
  deriving DecidableEq

/-- The parsed central directory of the embedded ZIP archive. -/
structure Archive where
  entries : List EntryPath
  deriving DecidableEq

/-- `TPath::Combine(base, e)`: returns `e` unchanged when it is rooted,
otherwise appends it to `base`. -/
def combine (base : FPath) (e : EntryPath) : FPath :=
  if e.rooted then e.segs else base ++ e.segs

/-- Environment of `ExtractZipToTemp`: the temporary-files root returned by
`TPath::GetTempPath()`, the `GetTickCount()` value, and whether directory
creation and `TZipFile::Open` succeed. -/
structure ExtractEnv where
  tempRoot : FPath
  tick : Nat
  createOk : Bool
  zipOpenOk : Bool
  deriving DecidableEq

/-- The temporary directory name synthesized by `ExtractZipToTemp`:
`"FlagImages_" + IntToStr(static_cast<int>(GetTickCount()))`. -/
def workspaceName (tick : Nat) : String :=
  "FlagImages_" ++ intToStr (int32OfTick tick)

/-- The full workspace path `TPath::GetTempPath() + "FlagImages_" + tick`. -/
def destOf (eenv : ExtractEnv) : FPath := eenv.tempRoot ++ [workspaceName eenv.tick]

/-- One iteration of the extraction loop of `TForm1::ExtractZipToTemp`:
`fullPath := TPath::Combine(tempDirectory, fileName)`;
`dir := TPath::GetDirectoryName(fullPath)` (lexical: drop the last segment);
create `dir` if missing; then `zipFile->Extract(fileName, dir)`.
`TZipFile::Extract(name, path)` with the default `CreateSubdirs = True`
writes the entry at `TPath::Combine(path, name)` — the entry's full relative
name appended to `path` — creating that file's directory chain first. -/
def extractOne (dest : FPath) (fs : FS) (e : EntryPath) : FS :=
  let fullPath := combine dest e
  let dir := fullPath.dropLast
  let fs1 := if fs.dirExists (normSegs dir) then fs else fs.mkDirRec (normSegs dir)
  let target := combine dir e
  let fs2 := fs1.mkDirRec (normSegs target.dropLast)
  fs2.writeFile (normSegs target)

/-- Result of `TForm1::ExtractZipToTemp`: the `tempDirectory` member it
assigned, the filesystem afterwards, and its boolean return. -/
structure ZipExtractResult where
  tempDirectory : FPath
  fs : FS
  success : Bool
  deriving DecidableEq

/-- `TForm1::ExtractZipToTemp`: synthesize the workspace path, create the
directory (failure or a missing directory returns false), open the stream as
a ZIP (an exception is caught and returns false), then extract every entry
in archive order and return true. -/
def extractZipToTemp (eenv : ExtractEnv) (fs : FS) (arch : Archive) : ZipExtractResult :=
  let dest := destOf eenv
  let fs1 := if eenv.createOk then fs.mkDirRec dest else fs
  if fs1.dirExists dest = false then ⟨dest, fs1, false⟩
  else if eenv.zipOpenOk = false then ⟨dest, fs1, false⟩
  else ⟨dest, arch.entries.foldl (extractOne dest) fs1, true⟩

/-- Environment of `TForm1::ExtractResourceAsZip`: whether `FindResource`
finds resource 1/RT_RCDATA, whether `LoadResource` succeeds, whether
`LockResource` yields a pointer, and `SizeofResource`. -/
structure ResourceEnv where
  found : Bool
  loadOk : Bool
  lockOk : Bool
  size : Nat
  deriving DecidableEq

/-- Result of `TForm1::ExtractResourceAsZip`: its boolean return, the
`ShowMessage` text it raised on its own failure paths, whether
`ExtractZipToTemp` was invoked at all, and the resulting `tempDirectory`
member and filesystem. -/
structure ResExtractResult where
  success : Bool
  message : Option String
  attempted : Bool
  tempDirectory : FPath
  fs : FS
  deriving DecidableEq

/-- `TForm1::ExtractResourceAsZip`: find, load and lock the resource,
rejecting a missing resource, a failed load, a null pointer or a zero size
without attempting extraction; otherwise copy the bytes to a stream and run
`ExtractZipToTemp`. -/
def extractResourceAsZip (renv : ResourceEnv) (eenv : ExtractEnv) (fs : FS)
    (arch : Archive) : ResExtractResult :=
  if renv.found = false then
    ⟨false, some ("No suitable resource found in the executable"), false, [], fs⟩
  else if renv.loadOk = false then
    ⟨false, some ("Unable to load resource"), false, [], fs⟩
  else if renv.lockOk = false || renv.size == 0 then
    ⟨false, some ("Invalid resource data"), false, [], fs⟩
  else
    let z := extractZipToTemp eenv fs arch
    ⟨z.success, none, true, z.tempDirectory, z.fs⟩

/-- Lower-cased character data of a string. -/
def lowerChars (s : String) : List Char := s.data.map Char.toLower

/-- `l` ends with the run `suf`. -/
def sufMatch (l suf : List Char) : Bool := decide (l.reverse.take suf.length = suf.reverse)

/-- Whether a file name matches the mask `*.ext`, as `TDirectory::GetFiles`
matches names on Windows: case-insensitively. -/
def extMatch (ext name : String) : Bool :=
  sufMatch (lowerChars name) (lowerChars ("." ++ ext))

/-- `TDirectory::GetFiles(root, "*.ext", TSearchOption::soAllDirectories)`:
every regular file in the subtree of `root` whose name matches the mask. -/
def getFiles (fs : FS) (root : FPath) (ext : String) : List FPath :=
  fs.files.filter (fun p => leadsWith p root && extMatch ext (fileName p))

/-- Environment of the catalog scan: whether the directory enumeration
raises (the `catch` branch of `LoadFlagImages`). -/
structure ScanEnv where
  scanIOOk : Bool
  deriving DecidableEq

/-- The search loop of `LoadFlagImages`, generalized over the extension
array it iterates: the matches of each pattern, appended in pattern order. -/
def collectFiles (fs : FS) (root : FPath) : List String → List FPath
  | [] => []
  | ext :: rest => getFiles fs root ext ++ collectFiles fs root rest

/-- The fixed extension array of `LoadFlagImages`
(`*.png, *.jpg, *.jpeg, *.bmp, *.gif`). -/
def imageExts : List String := ["png", "jpg", "jpeg", "bmp", "gif"]

/-- `TForm1::LoadFlagImages`, parametrized by the extension set: clear the
previous catalog, return empty when `tempDirectory` is the empty string or
does not exist, scan otherwise; an enumeration exception is caught and
reported by `ShowMessage` (returned here as the second component). -/
def scanDir (senv : ScanEnv) (prev : List FPath) (root : FPath) (fs : FS)
    (exts : List String) : List FPath × Option String :=
  let _ := prev
  if root.isEmpty || !(fs.dirExists root) then ([], none)
  else if !senv.scanIOOk then ([], some ("Error searching for image files"))
  else (collectFiles fs root exts, none)

/-- `GetFileNameWithoutExtension`: the name with its last dot-suffix removed. -/
def fileBaseName (name : String) : String :=
  let parts := name.splitOn (".")
  if parts.length ≤ 1 then name else String.intercalate (".") (parts.dropLast)

/-- The UI outcome of `TForm1::ShowRandomFlag`: the `LabelFlagName` caption,
the `LabelStatus` caption when it updates one, the selected index and path,
and the generator state afterwards. -/
structure ShowResult where
  flagName : String
  statusUpdate : Option String
  picked : Option (Nat × FPath)
  gen : MT
  deriving DecidableEq

/-- `TForm1::ShowRandomFlag`: with an empty catalog, set the caption and
return without touching the generator; otherwise draw
`uniform_int_distribution<int>(0, size - 1)` from the member generator,
select that path and report position `index + 1 / size`. -/
def showRandomFlag (files : List FPath) (g : MT) : ShowResult :=
  if files.length = 0 then
    ⟨"No flag images available", none, none, g⟩
  else
    let r := uniformInt 0 (files.length - 1) g
    let selected := files.getD r.1 []
    ⟨"Flag: " ++ fileBaseName (fileName selected),
      some ("Status: Displaying " ++ natToStr (r.1 + 1) ++ "/" ++
        natToStr files.length ++ " flag"),
      some (r.1, selected), r.2⟩

/-- The observable outcome of `TForm1::InitializeApplication`: the final
`LabelStatus` caption, whether it was turned red, the `flagFiles` member,
the `tempDirectory` member, the filesystem and generator afterwards, and
the `LabelFlagName` caption when a flag was shown. -/
structure InitResult where
  status : String
  statusIsError : Bool
  flagFiles : List FPath
  tempDirectory : FPath
  fs : FS
  gen : MT
  flagName : Option String
  deriving DecidableEq

/-- `TForm1::InitializeApplication`: run `ExtractResourceAsZip`; on success
run `LoadFlagImages` and either report the count and show a first flag, or
report `No image files found` in red; on failure report
`Resource extraction failed` in red. -/
def applicationInit (renv : ResourceEnv) (eenv : ExtractEnv) (senv : ScanEnv)
    (arch : Archive) (fs0 : FS) (g0 : MT) : InitResult :=
  let r := extractResourceAsZip renv eenv fs0 arch
  if r.success then
    let scan := scanDir senv [] r.tempDirectory r.fs imageExts
    let files := scan.1
    if files.length > 0 then
      let s := showRandomFlag files g0
      ⟨"Status: Successfully loaded " ++ natToStr files.length ++ " flag images",
        false, files, r.tempDirectory, r.fs, s.gen, some s.flagName⟩
    else
      ⟨"Status: No image files found", true, files, r.tempDirectory, r.fs, g0, none⟩
  else
    ⟨"Status: Resource extraction failed", true, [], r.tempDirectory, r.fs, g0, none⟩

/-- `TForm1::CleanupTempFiles`: when `tempDirectory` is nonempty and exists,
delete it recursively; an exception during deletion is caught and ignored
(the model's flag `deleteOk` says whether the deletion succeeded).  The
second component is the error surfaced to the caller: always `none`. -/
def cleanupTempFiles (deleteOk : Bool) (td : FPath) (fs : FS) : FS × Option String :=
  if !td.isEmpty && fs.dirExists td then
    (if deleteOk then fs.removeTree td else fs, none)
  else (fs, none)

/-- A full controller lifetime: construction (which runs
`InitializeApplication`) followed by destruction (which runs
`CleanupTempFiles` on the `tempDirectory` member). -/
structure LifecycleResult where
  init : InitResult
  finalFs : FS
  cleanupErr : Option String
  deriving DecidableEq

/-- Constructor followed by destructor of `TForm1`. -/
def runLifecycle (renv : ResourceEnv) (eenv : ExtractEnv) (senv : ScanEnv)
    (arch : Archive) (fs0 : FS) (g0 : MT) (deleteOk : Bool) : LifecycleResult :=
  let i := applicationInit renv eenv senv arch fs0 g0
  let c := cleanupTempFiles deleteOk i.tempDirectory i.fs
  ⟨i, c.1, c.2⟩

/-! ## Helper lemmas -/

theorem take_append_len {α : Type} (l m : List α) : (l ++ m).take l.length = l := by
  induction l with
  | nil => rfl
  | cons a t ih => simp [List.take, ih]

theorem leadsWith_append (base rest : FPath) : leadsWith (base ++ rest) base = true := by
  simp [leadsWith, take_append_len]

theorem leadsWith_self (p : FPath) : leadsWith p p = true := by
  simp [leadsWith]

theorem fileName_append_single (root : FPath) (x : String) :
    fileName (root ++ [x]) = x := by
  simp [fileName]

theorem removeTree_dirExists_self (fs : FS) (p : FPath) :
    (fs.removeTree p).dirExists p = false := by
  simp [FS.dirExists, FS.removeTree, List.mem_filter, leadsWith_self]

theorem removeTree_files_out (fs : FS) (p q : FPath) (h : q ∈ (fs.removeTree p).files) :
    leadsWith q p = false := by
  simp [FS.removeTree, List.mem_filter] at h
  exact h.2

theorem mtNext_state_ne (g : MT) : (mtNext g).2 ≠ g := by
  unfold mtNext
  by_cases h : g.mti ≥ 624
  · simp only [h, if_true]
    intro he
    have hm := congrArg MT.mti he
    simp only at hm
    omega
  · simp only [h, if_false]
    intro he
    have hm := congrArg MT.mti he
    simp only at hm
    omega

theorem digitChar_inj_small :
    ∀ a, a < 10 → ∀ b, b < 10 → digitChar a = digitChar b → a = b := by decide

theorem map_digitChar_inj : ∀ (l1 l2 : List Nat), (∀ d ∈ l1, d < 10) → (∀ d ∈ l2, d < 10) →
    l1.map digitChar = l2.map digitChar → l1 = l2 := by
  intro l1
  induction l1 with
  | nil =>
    intro l2 _ _ h
    cases l2 with
    | nil => rfl
    | cons b t => simp at h
  | cons a t ih =>
    intro l2 h1 h2 h
    cases l2 with
    | nil => simp at h
    | cons b u =>
      simp only [List.map_cons, List.cons.injEq] at h
      have ha : a = b := digitChar_inj_small a (h1 a (by simp)) b (h2 b (by simp)) h.1
      have ht : t = u :=
        ih u (fun d hd => h1 d (by simp [hd])) (fun d hd => h2 d (by simp [hd])) h.2
      rw [ha, ht]

theorem natToStrAux_eq_digits :
    ∀ (fuel n : Nat), n ≤ fuel →
      natToStrAux fuel n = ((Nat.digits 10 n).map digitChar).reverse := by
  intro fuel
  induction fuel with
  | zero =>
    intro n hn
    have h0 : n = 0 := Nat.le_zero.mp hn
    subst h0
    simp [natToStrAux]
  | succ f ih =>
    intro n hn
    by_cases h0 : n = 0
    · subst h0
      simp [natToStrAux]
    · have hpos : 0 < n := Nat.pos_of_ne_zero h0
      have hdiv : n / 10 ≤ f := by
        have := Nat.div_lt_self hpos (by omega : 1 < 10)
        omega
      rw [show natToStrAux (f + 1) n = natToStrAux f (n / 10) ++ [digitChar (n % 10)] by
        simp [natToStrAux, h0]]
      rw [ih (n / 10) hdiv, Nat.digits_def' (by omega : 1 < 10) hpos]
      simp

theorem natToStr_data (k : Nat) :
    (natToStr k).data
      = if k = 0 then [digitChar 0] else ((Nat.digits 10 k).map digitChar).reverse := by
  by_cases h : k = 0
  · subst h
    simp only [natToStr, if_true]
    decide
  · simp [natToStr, h, natToStrAux_eq_digits k k le_rfl]

theorem natToStr_data_inj (m n : Nat) (h : (natToStr m).data = (natToStr n).data) :
    m = n := by
  rw [natToStr_data, natToStr_data] at h
  by_cases hm : m = 0 <;> by_cases hn : n = 0
  · omega
  · exfalso
    simp only [hm, hn, if_true, if_false] at h
    have h2 : (Nat.digits 10 n).map digitChar = [digitChar 0] := by
      have h3 := congrArg List.reverse h
      simpa using h3.symm
    cases hd : Nat.digits 10 n with
    | nil => rw [hd] at h2; simp at h2
    | cons d t =>
      rw [hd] at h2
      simp only [List.map_cons, List.cons.injEq] at h2
      have ht : t = [] := List.map_eq_nil_iff.mp h2.2
      have hlt : d < 10 := Nat.digits_lt_base (by omega) (by rw [hd]; simp)
      have hd0 : d = 0 := digitChar_inj_small d hlt 0 (by omega) h2.1
      have := Nat.ofDigits_digits 10 n
      rw [hd, ht, hd0] at this
      simp [Nat.ofDigits] at this
      omega
  · exfalso
    simp only [hm, hn, if_true, if_false] at h
    have h2 : (Nat.digits 10 m).map digitChar = [digitChar 0] := by
      have h3 := congrArg List.reverse h
      simpa using h3
    cases hd : Nat.digits 10 m with
    | nil => rw [hd] at h2; simp at h2
    | cons d t =>
      rw [hd] at h2
      simp only [List.map_cons, List.cons.injEq] at h2
      have ht : t = [] := List.map_eq_nil_iff.mp h2.2
      have hlt : d < 10 := Nat.digits_lt_base (by omega) (by rw [hd]; simp)
      have hd0 : d = 0 := digitChar_inj_small d hlt 0 (by omega) h2.1
      have := Nat.ofDigits_digits 10 m
      rw [hd, ht, hd0] at this
      simp [Nat.ofDigits] at this
      omega
  · simp only [hm, hn, if_false] at h
    have h2 := congrArg List.reverse h
    simp only [List.reverse_reverse] at h2
    have h3 : Nat.digits 10 m = Nat.digits 10 n :=
      map_digitChar_inj _ _ (fun d hd => Nat.digits_lt_base (by omega) hd)
        (fun d hd => Nat.digits_lt_base (by omega) hd) h2
    exact Nat.digits.injective 10 h3

theorem string_append_data (a b : String) : (a ++ b).data = a.data ++ b.data := by
  cases a
  cases b
  rfl

theorem workspaceName_eq_of_small (t : Nat) (ht : t < 2147483648) :
    workspaceName t = "FlagImages_" ++ natToStr t := by
  have hm : t % 4294967296 = t := Nat.mod_eq_of_lt (by omega)
  have h32 : int32OfTick t = (t : Int) := by
    unfold int32OfTick
    rw [hm]
    simp [ht]
  unfold workspaceName
  rw [h32]
  unfold intToStr
  have hpos : ¬((t : Int) < 0) := by
    simp
  simp [hpos]

theorem workspaceName_inj_small (t1 t2 : Nat) (h1 : t1 < 2147483648)
    (h2 : t2 < 2147483648) (hne : t1 ≠ t2) : workspaceName t1 ≠ workspaceName t2 := by
  rw [workspaceName_eq_of_small t1 h1, workspaceName_eq_of_small t2 h2]
  intro h
  have hd := congrArg String.data h
  rw [string_append_data, string_append_data] at hd
  have hc : (natToStr t1).data = (natToStr t2).data := by
    have := List.append_cancel_left hd
    exact this
  exact hne (natToStr_data_inj t1 t2 hc)

theorem extractZipToTemp_tempDirectory (eenv : ExtractEnv) (fs : FS) (arch : Archive) :
    (extractZipToTemp eenv fs arch).tempDirectory = destOf eenv := by
  unfold extractZipToTemp
  simp only [apply_ite ZipExtractResult.tempDirectory, ite_self]

/-! ## Claim theorems -/

/-- Claim C10: when the scan root is the empty string or names a directory
that does not exist, the scan clears the previously held catalog and returns
an empty catalog while reporting no error. -/
theorem c10_scan_missing_root (senv : ScanEnv) (prev : List FPath) (root : FPath)
    (fs : FS) (exts : List String) (h : root = [] ∨ fs.dirExists root = false) :
    scanDir senv prev root fs exts = ([], none) := by
  unfold scanDir
  rcases h with h | h
  · subst h
    simp
  · simp [h]

/-- Witness for C10 at a concrete nonexistent root. -/
theorem c10_scan_missing_root_witness :
    scanDir ⟨true⟩ [["old"]] ["gone"] ⟨[], []⟩ imageExts = ([], none) :=
  c10_scan_missing_root ⟨true⟩ [["old"]] ["gone"] ⟨[], []⟩ imageExts
    (Or.inr (by decide))

/-- Claim C6: `CleanupTempFiles` (the model's `destroy`) is idempotent and
error-swallowing: with no workspace recorded, or with the directory already
absent, it is a no-op with no error; running it twice equals running it
once; and its surfaced error is always `none`, even when the recursive
deletion itself fails. -/
theorem c6_destroy_idempotent (dOk : Bool) (td : FPath) (fs : FS) :
    cleanupTempFiles dOk [] fs = (fs, none) ∧
    (fs.dirExists td = false → cleanupTempFiles dOk td fs = (fs, none)) ∧
    cleanupTempFiles dOk td (cleanupTempFiles dOk td fs).1 = cleanupTempFiles dOk td fs ∧
    (cleanupTempFiles dOk td fs).2 = none := by
  refine ⟨by simp [cleanupTempFiles], fun h => by simp [cleanupTempFiles, h], ?_, ?_⟩
  · by_cases h : (!td.isEmpty && fs.dirExists td) = true
    · by_cases hd : dOk = true
      · subst hd
        simp only [cleanupTempFiles, h, if_true]
        simp [removeTree_dirExists_self]
      · have hd' : dOk = false := by
          cases dOk
          · rfl
          · exact absurd rfl hd
        subst hd'
        simp [cleanupTempFiles, h]
    · simp [cleanupTempFiles, h]
  · unfold cleanupTempFiles
    by_cases h : (!td.isEmpty && fs.dirExists td) = true
    · simp [h]
    · simp [h]

/-- Witness for C6 at a concrete absent directory. -/
theorem c6_destroy_idempotent_witness :
    cleanupTempFiles true [] (⟨[["d"]], []⟩ : FS) = (⟨[["d"]], []⟩, none) ∧
    cleanupTempFiles true ["x"] (⟨[["d"]], []⟩ : FS) = (⟨[["d"]], []⟩, none) := by
  have h := c6_destroy_idempotent true ["x"] (⟨[["d"]], []⟩ : FS)
  exact ⟨h.1, h.2.1 (by decide)⟩

/-- Claim C5: reading the embedded resource fails with the resource-not-found
report when `FindResource` finds nothing, and with the invalid-resource-data
report when the handle cannot be locked or the size is zero; in each case no
extraction is attempted and the operation returns failure. -/
theorem c5_resource_failures (renv : ResourceEnv) (eenv : ExtractEnv) (fs : FS)
    (arch : Archive) :
    (renv.found = false → extractResourceAsZip renv eenv fs arch
        = ⟨false, some ("No suitable resource found in the executable"), false, [], fs⟩) ∧
    (renv.found = true → renv.loadOk = true → renv.lockOk = false ∨ renv.size = 0 →
      extractResourceAsZip renv eenv fs arch
        = ⟨false, some ("Invalid resource data"), false, [], fs⟩) := by
  constructor
  · intro h
    simp [extractResourceAsZip, h]
  · intro h1 h2 h3
    rcases h3 with h3 | h3 <;> simp [extractResourceAsZip, h1, h2, h3]

/-- Witness for C5 at concrete missing-resource and zero-size environments. -/
theorem c5_resource_failures_witness :
    extractResourceAsZip ⟨false, true, true, 3⟩ ⟨[], 0, true, true⟩ ⟨[], []⟩ ⟨[]⟩
      = ⟨false, some ("No suitable resource found in the executable"), false, [], ⟨[], []⟩⟩ ∧
    extractResourceAsZip ⟨true, true, true, 0⟩ ⟨[], 0, true, true⟩ ⟨[], []⟩ ⟨[]⟩
      = ⟨false, some ("Invalid resource data"), false, [], ⟨[], []⟩⟩ :=
  ⟨(c5_resource_failures ⟨false, true, true, 3⟩ ⟨[], 0, true, true⟩ ⟨[], []⟩ ⟨[]⟩).1 rfl,
   (c5_resource_failures ⟨true, true, true, 0⟩ ⟨[], 0, true, true⟩ ⟨[], []⟩ ⟨[]⟩).2
     rfl rfl (Or.inr rfl)⟩

theorem uniformInt_fst (a b : Nat) (g : MT) :
    (uniformInt a b g).1 = a + (mtNext g).1 % (b - a + 1) := rfl

theorem uniformInt_snd (a b : Nat) (g : MT) : (uniformInt a b g).2 = (mtNext g).2 := rfl

theorem showRandomFlag_picked_pos (files : List FPath) (g : MT) (h : ¬ files.length = 0) :
    (showRandomFlag files g).picked
      = some ((uniformInt 0 (files.length - 1) g).1,
          files.getD (uniformInt 0 (files.length - 1) g).1 []) := by
  simp [showRandomFlag, h]

theorem showRandomFlag_gen_pos (files : List FPath) (g : MT) (h : ¬ files.length = 0) :
    (showRandomFlag files g).gen = (uniformInt 0 (files.length - 1) g).2 := by
  simp [showRandomFlag, h]

/-- Claim C8: with an empty population the selector refuses (no pick, the
no-flags caption, the generator untouched); with a nonempty population it
returns an index below the population size; with population 1 it returns
index 0; and a successful call always advances the generator state. -/
theorem c8_selector_contract (files : List FPath) (g : MT) :
    (files.length = 0 → showRandomFlag files g = ⟨"No flag images available", none, none, g⟩) ∧
    (0 < files.length →
      ∃ i p, (showRandomFlag files g).picked = some (i, p) ∧ i < files.length) ∧
    (files.length = 1 → ∃ p, (showRandomFlag files g).picked = some (0, p)) ∧
    (0 < files.length → (showRandomFlag files g).gen ≠ g) := by
  refine ⟨fun h => by simp [showRandomFlag, h], ?_, ?_, ?_⟩
  · intro h
    have hne : ¬ files.length = 0 := by omega
    refine ⟨(uniformInt 0 (files.length - 1) g).1,
      files.getD (uniformInt 0 (files.length - 1) g).1 [], ?_, ?_⟩
    · exact showRandomFlag_picked_pos files g hne
    · rw [uniformInt_fst]
      have h2 : files.length - 1 - 0 + 1 = files.length := by omega
      rw [h2]
      have h3 := Nat.mod_lt (mtNext g).1 h
      omega
  · intro h
    have hne : ¬ files.length = 0 := by omega
    have hz : (uniformInt 0 (files.length - 1) g).1 = 0 := by
      rw [uniformInt_fst, h]
      simp [Nat.mod_one]
    refine ⟨files.getD 0 [], ?_⟩
    rw [showRandomFlag_picked_pos files g hne, hz]
  · intro h
    have hne : ¬ files.length = 0 := by omega
    rw [showRandomFlag_gen_pos files g hne, uniformInt_snd]
    exact mtNext_state_ne g

/-- Witness for C8 at an empty and a singleton catalog. -/
theorem c8_selector_contract_witness :
    showRandomFlag [] ⟨[], 0⟩ = ⟨"No flag images available", none, none, ⟨[], 0⟩⟩ ∧
    (∃ i p, (showRandomFlag [["a.png"]] ⟨[], 0⟩).picked = some (i, p) ∧ i < 1) ∧
    (∃ p, (showRandomFlag [["a.png"]] ⟨[], 0⟩).picked = some (0, p)) ∧
    (showRandomFlag [["a.png"]] ⟨[], 0⟩).gen ≠ ⟨[], 0⟩ := by
  refine ⟨(c8_selector_contract [] ⟨[], 0⟩).1 rfl, ?_, ?_, ?_⟩
  · exact (c8_selector_contract [["a.png"]] ⟨[], 0⟩).2.1 (by decide)
  · exact (c8_selector_contract [["a.png"]] ⟨[], 0⟩).2.2.1 (by decide)
  · exact (c8_selector_contract [["a.png"]] ⟨[], 0⟩).2.2.2 (by decide)

/-- Claim C7: the workspace path is synthesized by combining the system
temporary-directory root with the fixed name `FlagImages_` followed by the
tick-count timestamp, and distinct timestamps (within the nonnegative
32-bit range) yield distinct workspace paths, so concurrent instances with
different tick values do not collide. -/
theorem c7_workspace_path (eenv : ExtractEnv) (fs : FS) (arch : Archive)
    (root : FPath) (t1 t2 : Nat) (h1 : t1 < 2147483648) (h2 : t2 < 2147483648)
    (hne : t1 ≠ t2) :
    (extractZipToTemp eenv fs arch).tempDirectory
        = eenv.tempRoot ++ ["FlagImages_" ++ intToStr (int32OfTick eenv.tick)] ∧
    root ++ [workspaceName t1] ≠ root ++ [workspaceName t2] := by
  constructor
  · rw [extractZipToTemp_tempDirectory]
    rfl
  · intro h
    have hc : [workspaceName t1] = [workspaceName t2] := List.append_cancel_left h
    have hc2 : workspaceName t1 = workspaceName t2 := by
      simpa using hc
    exact workspaceName_inj_small t1 t2 h1 h2 hne hc2

/-- Witness for C7 at concrete ticks 1 and 2. -/
theorem c7_workspace_path_witness :
    (extractZipToTemp ⟨["C:", "Temp"], 7, true, true⟩ ⟨[], []⟩ ⟨[]⟩).tempDirectory
        = ["C:", "Temp"] ++ ["FlagImages_" ++ intToStr (int32OfTick 7)] ∧
    ([] : FPath) ++ [workspaceName 1] ≠ ([] : FPath) ++ [workspaceName 2] :=
  c7_workspace_path ⟨["C:", "Temp"], 7, true, true⟩ ⟨[], []⟩ ⟨[]⟩ [] 1 2
    (by decide) (by decide) (by decide)

theorem isEmpty_false_of_ne_nil {root : FPath} (h : root ≠ []) :
    root.isEmpty = false := by
  cases root with
  | nil => exact absurd rfl h
  | cons a t => rfl

theorem getFiles_eq_nil (fs : FS) (root : FPath) (ext : String)
    (h : ∀ p ∈ fs.files, leadsWith p root = true → extMatch ext (fileName p) = false) :
    getFiles fs root ext = [] := by
  unfold getFiles
  rw [List.filter_eq_nil_iff]
  intro p hp
  cases hl : leadsWith p root with
  | false => simp [hl]
  | true => simp [hl, h p hp hl]

theorem collectFiles_eq_nil (fs : FS) (root : FPath) :
    ∀ (exts : List String),
      (∀ p ∈ fs.files, leadsWith p root = true →
        ∀ ext ∈ exts, extMatch ext (fileName p) = false) →
      collectFiles fs root exts = [] := by
  intro exts
  induction exts with
  | nil => intro _; rfl
  | cons e rest ih =>
    intro h
    show getFiles fs root e ++ collectFiles fs root rest = []
    rw [getFiles_eq_nil fs root e (fun p hp hl => h p hp hl e (by simp)),
      ih (fun p hp hl ext he => h p hp hl ext (by simp [he]))]
    rfl

theorem applicationInit_success_empty (renv : ResourceEnv) (eenv : ExtractEnv)
    (senv : ScanEnv) (arch : Archive) (fs0 : FS) (g0 : MT)
    (hsucc : (extractResourceAsZip renv eenv fs0 arch).success = true)
    (hempty : (scanDir senv [] (extractResourceAsZip renv eenv fs0 arch).tempDirectory
        (extractResourceAsZip renv eenv fs0 arch).fs imageExts).1 = []) :
    applicationInit renv eenv senv arch fs0 g0
      = ⟨"Status: No image files found", true, [],
          (extractResourceAsZip renv eenv fs0 arch).tempDirectory,
          (extractResourceAsZip renv eenv fs0 arch).fs, g0, none⟩ := by
  unfold applicationInit
  simp [hsucc, hempty]

/-- Claim C3: scanning an existing directory that contains no file with an
extension in the filter set yields an empty catalog with no error reported,
and an initialization whose extraction succeeded but whose catalog came back
empty reports the distinct `No image files found` condition rather than the
hard `Resource extraction failed` one. -/
theorem c3_empty_scan_soft_status (senv : ScanEnv) (fs : FS) (root : FPath)
    (exts : List String) (prev : List FPath) (renv : ResourceEnv) (eenv : ExtractEnv)
    (senv2 : ScanEnv) (arch : Archive) (fs0 : FS) (g0 : MT)
    (hok : senv.scanIOOk = true) (hroot : root ≠ []) (hex : fs.dirExists root = true)
    (hnomatch : ∀ p ∈ fs.files, leadsWith p root = true →
      ∀ ext ∈ exts, extMatch ext (fileName p) = false)
    (hsucc : (extractResourceAsZip renv eenv fs0 arch).success = true)
    (hempty : (scanDir senv2 [] (extractResourceAsZip renv eenv fs0 arch).tempDirectory
        (extractResourceAsZip renv eenv fs0 arch).fs imageExts).1 = []) :
    scanDir senv prev root fs exts = ([], none) ∧
    (applicationInit renv eenv senv2 arch fs0 g0).status
        = "Status: No image files found" ∧
    (applicationInit renv eenv senv2 arch fs0 g0).status
        ≠ "Status: Resource extraction failed" := by
  refine ⟨?_, ?_, ?_⟩
  · unfold scanDir
    simp [isEmpty_false_of_ne_nil hroot, hex, hok,
      collectFiles_eq_nil fs root exts hnomatch]
  · rw [applicationInit_success_empty renv eenv senv2 arch fs0 g0 hsucc hempty]
  · rw [applicationInit_success_empty renv eenv senv2 arch fs0 g0 hsucc hempty]
    simp

/-- Witness for C3 at a directory holding only `c.txt` and an application
run whose embedded archive is empty. -/
theorem c3_empty_scan_soft_status_witness :
    scanDir ⟨true⟩ [] ["d"] ⟨[["d"]], [["d", "c.txt"]]⟩ ["png"] = ([], none) ∧
    (applicationInit ⟨true, true, true, 4⟩ ⟨["T"], 1, true, true⟩ ⟨true⟩ ⟨[]⟩
        ⟨[], []⟩ ⟨[], 0⟩).status = "Status: No image files found" ∧
    (applicationInit ⟨true, true, true, 4⟩ ⟨["T"], 1, true, true⟩ ⟨true⟩ ⟨[]⟩
        ⟨[], []⟩ ⟨[], 0⟩).status ≠ "Status: Resource extraction failed" :=
  c3_empty_scan_soft_status ⟨true⟩ ⟨[["d"]], [["d", "c.txt"]]⟩ ["d"] ["png"] []
    ⟨true, true, true, 4⟩ ⟨["T"], 1, true, true⟩ ⟨true⟩ ⟨[]⟩ ⟨[], []⟩ ⟨[], 0⟩
    rfl (by decide) (by decide) (by decide) (by decide) (by decide)

/-- Claim C9: scanning a directory that contains exactly `a.png`, `b.PNG`
and `c.txt` with the filter set `{png}` returns a catalog of length 2
holding exactly the two PNG paths: extension matching is case-insensitive. -/
theorem c9_scan_png_case_insensitive (root : FPath) (senv : ScanEnv)
    (prev : List FPath) (hok : senv.scanIOOk = true) (hroot : root ≠ []) :
    scanDir senv prev root
        ⟨[root], [root ++ ["a.png"], root ++ ["b.PNG"], root ++ ["c.txt"]]⟩ ["png"]
      = ([root ++ ["a.png"], root ++ ["b.PNG"]], none) ∧
    (scanDir senv prev root
        ⟨[root], [root ++ ["a.png"], root ++ ["b.PNG"], root ++ ["c.txt"]]⟩ ["png"]).1.length
      = 2 := by
  have e1 : extMatch ("png") ("a.png") = true := by decide
  have e2 : extMatch ("png") ("b.PNG") = true := by decide
  have e3 : extMatch ("png") ("c.txt") = false := by decide
  have hex : FS.dirExists
      ⟨[root], [root ++ ["a.png"], root ++ ["b.PNG"], root ++ ["c.txt"]]⟩ root = true := by
    simp [FS.dirExists]
  have h : scanDir senv prev root
      ⟨[root], [root ++ ["a.png"], root ++ ["b.PNG"], root ++ ["c.txt"]]⟩ ["png"]
      = ([root ++ ["a.png"], root ++ ["b.PNG"]], none) := by
    unfold scanDir
    simp only [isEmpty_false_of_ne_nil hroot, hex, hok, Bool.not_true, Bool.or_self,
      Bool.false_or, Bool.not_false, if_false, if_true, Bool.false_eq_true]
    unfold collectFiles collectFiles getFiles
    simp [List.filter, leadsWith_append, fileName_append_single, e1, e2, e3]
  exact ⟨h, by rw [h]; simp⟩

/-- Witness for C9 at the root directory `d`. -/
theorem c9_scan_png_case_insensitive_witness :
    scanDir ⟨true⟩ [] ["d"]
        ⟨[["d"]], [["d"] ++ ["a.png"], ["d"] ++ ["b.PNG"], ["d"] ++ ["c.txt"]]⟩ ["png"]
      = ([["d"] ++ ["a.png"], ["d"] ++ ["b.PNG"]], none) ∧
    (scanDir ⟨true⟩ [] ["d"]
        ⟨[["d"]], [["d"] ++ ["a.png"], ["d"] ++ ["b.PNG"], ["d"] ++ ["c.txt"]]⟩
        ["png"]).1.length = 2 :=
  c9_scan_png_case_insensitive ["d"] ⟨true⟩ [] rfl (by decide)

/-- Claim C4: over a full controller lifetime, whenever initialization ended
in failure but the workspace directory had been created, the destructor's
cleanup still runs before the lifetime ends: the workspace directory and
every file below it are gone from the final filesystem, and no error
surfaces. -/
theorem c4_cleanup_on_failure (renv : ResourceEnv) (eenv : ExtractEnv) (senv : ScanEnv)
    (arch : Archive) (fs0 : FS) (g0 : MT)
    (_herr : (applicationInit renv eenv senv arch fs0 g0).statusIsError = true)
    (hws : (applicationInit renv eenv senv arch fs0 g0).tempDirectory ≠ [])
    (hex : (applicationInit renv eenv senv arch fs0 g0).fs.dirExists
        (applicationInit renv eenv senv arch fs0 g0).tempDirectory = true) :
    (runLifecycle renv eenv senv arch fs0 g0 true).finalFs.dirExists
        (runLifecycle renv eenv senv arch fs0 g0 true).init.tempDirectory = false ∧
    (∀ p ∈ (runLifecycle renv eenv senv arch fs0 g0 true).finalFs.files,
      leadsWith p (runLifecycle renv eenv senv arch fs0 g0 true).init.tempDirectory = false) ∧
    (runLifecycle renv eenv senv arch fs0 g0 true).cleanupErr = none := by
  have hie : (applicationInit renv eenv senv arch fs0 g0).tempDirectory.isEmpty = false :=
    isEmpty_false_of_ne_nil hws
  have hcl : cleanupTempFiles true (applicationInit renv eenv senv arch fs0 g0).tempDirectory
      (applicationInit renv eenv senv arch fs0 g0).fs
      = ((applicationInit renv eenv senv arch fs0 g0).fs.removeTree
          (applicationInit renv eenv senv arch fs0 g0).tempDirectory, none) := by
    unfold cleanupTempFiles
    simp [hie, hex]
  refine ⟨?_, ?_, ?_⟩
  · show (cleanupTempFiles true (applicationInit renv eenv senv arch fs0 g0).tempDirectory
        (applicationInit renv eenv senv arch fs0 g0).fs).1.dirExists
      (applicationInit renv eenv senv arch fs0 g0).tempDirectory = false
    rw [hcl]
    exact removeTree_dirExists_self _ _
  · show ∀ p ∈ (cleanupTempFiles true (applicationInit renv eenv senv arch fs0 g0).tempDirectory
        (applicationInit renv eenv senv arch fs0 g0).fs).1.files,
      leadsWith p (applicationInit renv eenv senv arch fs0 g0).tempDirectory = false
    rw [hcl]
    intro p hp
    exact removeTree_files_out _ _ _ hp
  · show (cleanupTempFiles true (applicationInit renv eenv senv arch fs0 g0).tempDirectory
        (applicationInit renv eenv senv arch fs0 g0).fs).2 = none
    rw [hcl]

/-- Witness for C4: a run whose archive stream fails to open after the
workspace directory was created. -/
theorem c4_cleanup_on_failure_witness :
    (runLifecycle ⟨true, true, true, 7⟩ ⟨["C:", "Temp"], 1, true, false⟩ ⟨true⟩ ⟨[]⟩
        ⟨[], []⟩ ⟨[], 0⟩ true).finalFs.dirExists
      (runLifecycle ⟨true, true, true, 7⟩ ⟨["C:", "Temp"], 1, true, false⟩ ⟨true⟩ ⟨[]⟩
        ⟨[], []⟩ ⟨[], 0⟩ true).init.tempDirectory = false ∧
    (∀ p ∈ (runLifecycle ⟨true, true, true, 7⟩ ⟨["C:", "Temp"], 1, true, false⟩ ⟨true⟩ ⟨[]⟩
        ⟨[], []⟩ ⟨[], 0⟩ true).finalFs.files,
      leadsWith p (runLifecycle ⟨true, true, true, 7⟩ ⟨["C:", "Temp"], 1, true, false⟩ ⟨true⟩
        ⟨[]⟩ ⟨[], []⟩ ⟨[], 0⟩ true).init.tempDirectory = false) ∧
    (runLifecycle ⟨true, true, true, 7⟩ ⟨["C:", "Temp"], 1, true, false⟩ ⟨true⟩ ⟨[]⟩
        ⟨[], []⟩ ⟨[], 0⟩ true).cleanupErr = none :=
  c4_cleanup_on_failure ⟨true, true, true, 7⟩ ⟨["C:", "Temp"], 1, true, false⟩ ⟨true⟩ ⟨[]⟩
    ⟨[], []⟩ ⟨[], 0⟩ (by decide) (by decide) (by decide)

theorem normSegs_snoc (p : FPath) (s : String) (h1 : s ≠ ".") (h2 : s ≠ "..") :
    normSegs (p ++ [s]) = normSegs p ++ [s] := by
  unfold normSegs
  rw [List.foldl_append]
  simp [h1, h2]

theorem string_length_append (a b : String) :
    (a ++ b).data.length = a.data.length + b.data.length := by
  rw [string_append_data, List.length_append]

theorem workspaceName_ne_dot (t : Nat) :
    workspaceName t ≠ "." ∧ workspaceName t ≠ ".." := by
  have l1 : ("FlagImages_" : String).data.length = 11 := by decide
  have l2 : ("." : String).data.length = 1 := by decide
  have l3 : (".." : String).data.length = 2 := by decide
  constructor
  · intro h
    have h2 := congrArg (fun x => x.data.length) h
    simp only [workspaceName] at h2
    rw [string_length_append, l1, l2] at h2
    omega
  · intro h
    have h2 := congrArg (fun x => x.data.length) h
    simp only [workspaceName] at h2
    rw [string_length_append, l1, l3] at h2
    omega

theorem destOf_ne_nil (eenv : ExtractEnv) : destOf eenv ≠ [] := by
  simp [destOf]

theorem normSegs_destOf (eenv : ExtractEnv)
    (h : normSegs eenv.tempRoot = eenv.tempRoot) :
    normSegs (destOf eenv) = destOf eenv := by
  unfold destOf
  rw [normSegs_snoc eenv.tempRoot (workspaceName eenv.tick)
    (workspaceName_ne_dot eenv.tick).1 (workspaceName_ne_dot eenv.tick).2, h]

theorem mkDirRec_files (fs : FS) (p : FPath) : (fs.mkDirRec p).files = fs.files := rfl

theorem writeFile_files (fs : FS) (q : FPath) :
    (fs.writeFile q).files = if q ∈ fs.files then fs.files else fs.files ++ [q] := rfl

theorem mem_ancestorsOf_self (p : FPath) (h : p ≠ []) : p ∈ ancestorsOf p := by
  unfold ancestorsOf
  have hl : 0 < p.length := List.length_pos.mpr h
  refine List.mem_map.mpr ⟨p.length - 1, List.mem_range.mpr (by omega), ?_⟩
  rw [show p.length - 1 + 1 = p.length by omega]
  simp

theorem mkDirRec_dirExists_self (fs : FS) (p : FPath) (h : p ≠ []) :
    (fs.mkDirRec p).dirExists p = true := by
  unfold FS.mkDirRec FS.dirExists
  simp only [decide_eq_true_eq]
  rw [List.mem_append]
  by_cases hp : p ∈ fs.dirs
  · exact Or.inl hp
  · right
    rw [List.mem_filter]
    exact ⟨mem_ancestorsOf_self p h, by simp [hp]⟩

theorem extractOne_flat_files (dest : FPath) (fs : FS) (s : String)
    (hds : normSegs dest = dest) (h1 : s ≠ ".") (h2 : s ≠ "..") :
    (extractOne dest fs ⟨false, [s]⟩).files
      = if dest ++ [s] ∈ fs.files then fs.files else fs.files ++ [dest ++ [s]] := by
  have hcomb : combine dest ⟨false, [s]⟩ = dest ++ [s] := rfl
  have hnorm : normSegs (dest ++ [s]) = dest ++ [s] := by
    rw [normSegs_snoc dest s h1 h2, hds]
  have hdl : (dest ++ [s]).dropLast = dest := by simp
  simp only [extractOne, hcomb, hdl, hnorm]
  by_cases hc : fs.dirExists (normSegs dest) = true
  · simp [hc, writeFile_files, mkDirRec_files]
  · simp [hc, writeFile_files, mkDirRec_files]

theorem extract_flat_fold (dest : FPath) (hds : normSegs dest = dest) :
    ∀ (names : List String) (fs : FS),
      (∀ s ∈ names, s ≠ "." ∧ s ≠ "..") →
      names.Nodup →
      (∀ s ∈ names, dest ++ [s] ∉ fs.files) →
      ((names.map (fun s => (⟨false, [s]⟩ : EntryPath))).foldl (extractOne dest) fs).files
        = fs.files ++ names.map (fun s => dest ++ [s]) := by
  intro names
  induction names with
  | nil =>
    intro fs _ _ _
    simp
  | cons a t ih =>
    intro fs h1 h2 h3
    simp only [List.map_cons, List.foldl_cons]
    have ha := h1 a (by simp)
    have hfa : dest ++ [a] ∉ fs.files := h3 a (by simp)
    have hstep : (extractOne dest fs ⟨false, [a]⟩).files = fs.files ++ [dest ++ [a]] := by
      rw [extractOne_flat_files dest fs a hds ha.1 ha.2]
      simp [hfa]
    have hrec := ih (extractOne dest fs ⟨false, [a]⟩)
      (fun s hs => h1 s (by simp [hs]))
      (List.nodup_cons.mp h2).2
      (fun s hs => by
        rw [hstep]
        simp only [List.mem_append, List.mem_singleton]
        rintro (hin | heq)
        · exact h3 s (by simp [hs]) hin
        · have heqs : s = a := by
            have hc := List.append_cancel_left heq
            simpa using hc
          exact (List.nodup_cons.mp h2).1 (heqs ▸ hs))
    rw [hrec, hstep]
    simp

/-- Counterexample to claim C2 as stated: a valid single-entry archive whose
entry `sub/b.png` uses no `..` segment and no absolute path extracts with
success, yet the single file produced under the destination has relative
path `sub/sub/b.png` rather than `sub/b.png` — the extraction call receives
the entry's parent directory and then re-appends the entry's full relative
name, duplicating the directory component — so the produced relative paths
do not match the archive's entries. -/
theorem c2_nested_entry_mismatch :
    (extractZipToTemp ⟨["C:", "Temp"], 5, true, true⟩ ⟨[], []⟩
        ⟨[⟨false, ["sub", "b.png"]⟩]⟩).success = true ∧
    (extractZipToTemp ⟨["C:", "Temp"], 5, true, true⟩ ⟨[], []⟩
        ⟨[⟨false, ["sub", "b.png"]⟩]⟩).fs.files
      = [["C:", "Temp", "FlagImages_5", "sub", "sub", "b.png"]] ∧
    (extractZipToTemp ⟨["C:", "Temp"], 5, true, true⟩ ⟨[], []⟩
        ⟨[⟨false, ["sub", "b.png"]⟩]⟩).fs.files.map
        (fun p => relTo p ["C:", "Temp", "FlagImages_5"])
      ≠ [["sub", "b.png"]] := by
  refine ⟨by decide, by decide, by decide⟩

/-- Claim C2 (amended): for every valid archive whose `N` entries are plain
file names — no directory component, no `.` or `..` segment, no absolute
path — and pairwise distinct, extraction into a freshly created destination
iterates the entries in archive order, returns success, and produces under
the destination exactly `N` files whose relative paths match the archive's
entries in archive order.  (Entries with a directory component instead land
at `destination/dirname(entry)/entry`, per the counterexample.) -/
theorem c2_extract_flat_entries (eenv : ExtractEnv) (fs0 : FS) (names : List String)
    (hco : eenv.createOk = true) (hzo : eenv.zipOpenOk = true)
    (hroot : normSegs eenv.tempRoot = eenv.tempRoot)
    (hn : ∀ s ∈ names, s ≠ "." ∧ s ≠ "..")
    (hnd : names.Nodup)
    (hfresh : ∀ p ∈ fs0.files, leadsWith p (destOf eenv) = false) :
    (extractZipToTemp eenv fs0 ⟨names.map (fun s => ⟨false, [s]⟩)⟩).success = true ∧
    ((extractZipToTemp eenv fs0 ⟨names.map (fun s => ⟨false, [s]⟩)⟩).fs.files.filter
        (fun p => leadsWith p (destOf eenv)))
      = names.map (fun s => destOf eenv ++ [s]) ∧
    ((extractZipToTemp eenv fs0 ⟨names.map (fun s => ⟨false, [s]⟩)⟩).fs.files.filter
        (fun p => leadsWith p (destOf eenv))).length = names.length := by
  have hdne : destOf eenv ≠ [] := destOf_ne_nil eenv
  have hds : normSegs (destOf eenv) = destOf eenv := normSegs_destOf eenv hroot
  have hun : extractZipToTemp eenv fs0 ⟨names.map (fun s => ⟨false, [s]⟩)⟩
      = ⟨destOf eenv,
          (names.map (fun s => (⟨false, [s]⟩ : EntryPath))).foldl (extractOne (destOf eenv))
            (fs0.mkDirRec (destOf eenv)), true⟩ := by
    unfold extractZipToTemp
    simp [hco, hzo, mkDirRec_dirExists_self fs0 (destOf eenv) hdne]
  have hfiles : ((names.map (fun s => (⟨false, [s]⟩ : EntryPath))).foldl
      (extractOne (destOf eenv)) (fs0.mkDirRec (destOf eenv))).files
      = fs0.files ++ names.map (fun s => destOf eenv ++ [s]) := by
    rw [extract_flat_fold (destOf eenv) hds names (fs0.mkDirRec (destOf eenv)) hn hnd]
    · rw [mkDirRec_files]
    · intro s hs
      rw [mkDirRec_files]
      intro hin
      have := hfresh _ hin
      rw [leadsWith_append (destOf eenv) [s]] at this
      exact Bool.true_eq_false.mp this
  have hfil : ((extractZipToTemp eenv fs0 ⟨names.map (fun s => ⟨false, [s]⟩)⟩).fs.files.filter
      (fun p => leadsWith p (destOf eenv)))
      = names.map (fun s => destOf eenv ++ [s]) := by
    rw [hun]
    show ((names.map (fun s => (⟨false, [s]⟩ : EntryPath))).foldl (extractOne (destOf eenv))
        (fs0.mkDirRec (destOf eenv))).files.filter (fun p => leadsWith p (destOf eenv))
      = names.map (fun s => destOf eenv ++ [s])
    rw [hfiles, List.filter_append]
    have hleft : fs0.files.filter (fun p => leadsWith p (destOf eenv)) = [] := by
      rw [List.filter_eq_nil_iff]
      intro p hp
      simp [hfresh p hp]
    have hright : (names.map (fun s => destOf eenv ++ [s])).filter
        (fun p => leadsWith p (destOf eenv)) = names.map (fun s => destOf eenv ++ [s]) := by
      rw [List.filter_eq_self]
      intro p hp
      obtain ⟨s, _, rfl⟩ := List.mem_map.mp hp
      exact leadsWith_append (destOf eenv) [s]
    rw [hleft, hright, List.nil_append]
  refine ⟨by rw [hun], hfil, by rw [hfil, List.length_map]⟩

/-- Witness for the amended C2 at a concrete two-entry flat archive. -/
theorem c2_extract_flat_entries_witness :
    (extractZipToTemp ⟨["C:", "Temp"], 5, true, true⟩ ⟨[], []⟩
        ⟨(["a.png", "b.png"] : List String).map (fun s => ⟨false, [s]⟩)⟩).success = true ∧
    ((extractZipToTemp ⟨["C:", "Temp"], 5, true, true⟩ ⟨[], []⟩
        ⟨(["a.png", "b.png"] : List String).map (fun s => ⟨false, [s]⟩)⟩).fs.files.filter
        (fun p => leadsWith p (destOf ⟨["C:", "Temp"], 5, true, true⟩)))
      = (["a.png", "b.png"] : List String).map
          (fun s => destOf ⟨["C:", "Temp"], 5, true, true⟩ ++ [s]) ∧
    ((extractZipToTemp ⟨["C:", "Temp"], 5, true, true⟩ ⟨[], []⟩
        ⟨(["a.png", "b.png"] : List String).map (fun s => ⟨false, [s]⟩)⟩).fs.files.filter
        (fun p => leadsWith p (destOf ⟨["C:", "Temp"], 5, true, true⟩))).length
      = (["a.png", "b.png"] : List String).length :=
  c2_extract_flat_entries ⟨["C:", "Temp"], 5, true, true⟩ ⟨[], []⟩ ["a.png", "b.png"]
    rfl rfl (by decide) (by decide) (by decide) (by decide)

/-- Claim C1 (defect exhibit): the specification requires an archive entry
whose relative path escapes the destination (a `..` segment or an absolute
path) to make extraction fail and write nothing outside the destination; the
extraction loop performs no containment check at all.  For the archive
holding the single entry `../evil.png`, extraction returns success and the
only file written resolves to `C:/evil.png`, which is outside the
destination directory `C:/Temp/FlagImages_7`. -/
theorem c1_traversal_check_missing :
    (extractZipToTemp ⟨["C:", "Temp"], 7, true, true⟩ ⟨[], []⟩
        ⟨[⟨false, ["..", "evil.png"]⟩]⟩).success = true ∧
    (extractZipToTemp ⟨["C:", "Temp"], 7, true, true⟩ ⟨[], []⟩
        ⟨[⟨false, ["..", "evil.png"]⟩]⟩).fs.files = [["C:", "evil.png"]] ∧
    leadsWith ["C:", "evil.png"]
      (extractZipToTemp ⟨["C:", "Temp"], 7, true, true⟩ ⟨[], []⟩
        ⟨[⟨false, ["..", "evil.png"]⟩]⟩).tempDirectory = false :=
  ⟨by decide, by decide, by decide⟩

end ZipModel
